import Mathlib

/-!
# safemap-go: a verification development of `safemap.go`

The package is one generic container `SafeMap[K, V]`: a Go map guarded by a
`sync.RWMutex`, with the operations `NewSafeMap`, `Insert`, `Get`, `Update`,
`HasKey`, and the error value `KeyError` with its method `Error`.

Modelling choices.

* A Go map value is either `nil` or an allocated map.  Reading a nil map
  gives the zero value and `ok = false`; assigning into a nil map panics.
* Keys follow Go's rules for map keys (`GoKey`).  A key may be unhashable (a
  key of interface type whose dynamic type is a slice, a map or a function):
  every index expression and every assignment with such a key panics, on a nil
  or empty map too.  A key may be unequal to itself under `==` (a `float64`
  NaN): an assignment stores an entry under it and no lookup ever finds one.
  Among keys that are equal to themselves, `==` is equality of the model.
* An allocated map is a table from keys to optional values, which holds the
  entries a lookup can find, together with the list of the entries stored
  under keys that are not equal to themselves.
* The zero value of `V` is `default` of `Inhabited V`.
* The mutex is explicit state: a reader count and a writer flag.  A call that
  cannot acquire the lock never returns; that is the outcome `blocked`.
* `defer` is modelled by running the unlock on every exit of the body, the
  panicking one included.
* `interface{}` is a tagged value; `e.Key.(string)` succeeds exactly on the
  tag `string`.
-/

namespace SafeMapGo

/-! ## Go run-time values -/

/-- Values of Go's `float64` as far as `==` tells them apart here: the NaN,
which is not equal to itself, or a number, given by an integer. -/
inductive Float64 where
  | NaN
  | num (n : Int)
deriving DecidableEq, Repr

/-- Dynamic value of an `interface{}`: the nil interface, or a value together
with its dynamic type.  Only the dynamic types used in this development are
listed; `slice` is a value of type `[]int`, which is not comparable. -/
inductive Iface where
  | nil
  | string (s : String)
  | int (n : Int)
  | bool (b : Bool)
  | float64 (x : Float64)
  | slice (xs : List Int)
deriving DecidableEq, Repr

/-- Conversion of a key of type `K` to `interface{}`, which Go performs
implicitly in the composite literal `KeyError{Key: key}`. -/
class ToIface (K : Type) where
  toIface : K → Iface

instance : ToIface String := ⟨Iface.string⟩

instance : ToIface Int := ⟨Iface.int⟩

instance : ToIface Bool := ⟨Iface.bool⟩

instance : ToIface Float64 := ⟨Iface.float64⟩

instance : ToIface Iface := ⟨fun k => k⟩

/-- Behaviour of the values of a key type `K comparable` as map keys.
`hashable key` is false when hashing `key` panics at run time (`hash of
unhashable type`).  `selfEqual key` is the value of `key == key`. -/
class GoKey (K : Type) where
  hashable : K → Bool
  selfEqual : K → Bool

instance : GoKey String := ⟨fun _ => true, fun _ => true⟩

instance : GoKey Int := ⟨fun _ => true, fun _ => true⟩

instance : GoKey Bool := ⟨fun _ => true, fun _ => true⟩

/-- Keys of type `float64`: all hashable, the NaN not equal to itself. -/
instance : GoKey Float64 where
  hashable := fun _ => true
  selfEqual := fun x =>
    match x with
    | Float64.NaN => false
    | Float64.num _ => true

/-- Keys of type `any`: a slice is unhashable, and an interface that holds a
NaN is not equal to itself. -/
instance : GoKey Iface where
  hashable := fun k =>
    match k with
    | Iface.slice _ => false
    | _ => true
  selfEqual := fun k =>
    match k with
    | Iface.slice _ => false
    | Iface.float64 Float64.NaN => false
    | _ => true

/-- How a call ends: it returns a result in a final state, it panics (the
final state is the one left behind after the deferred calls ran), it stops the
process with a fatal run-time error, or it never returns because it waits for
a lock. -/
inductive Outcome (σ α : Type) where
  | returned (s : σ) (a : α)
  | panicked (s : σ)
  | fatal
  | blocked

/-! ## `sync.RWMutex` -/

/-- State of a `sync.RWMutex`: the number of readers holding it and whether a
writer holds it. -/
structure RWMutex where
  readers : Nat
  writer : Bool
deriving DecidableEq, Repr

namespace RWMutex

/-- Composite literal `sync.RWMutex{}`: an unlocked mutex. -/
def zero : RWMutex := { readers := 0, writer := false }

/-- `mu.Lock()`: acquires the mutex for writing; `none` when a reader or a
writer holds it, in which case the caller waits. -/
def Lock (mu : RWMutex) : Option RWMutex :=
  if mu.readers = 0 ∧ mu.writer = false then some { mu with writer := true } else none

/-- `mu.Unlock()`: releases the writer; `none` is the fatal error raised when
the mutex is not locked for writing. -/
def Unlock (mu : RWMutex) : Option RWMutex :=
  if mu.writer = true then some { mu with writer := false } else none

/-- `mu.RLock()`: acquires the mutex for reading; `none` when a writer holds
it, in which case the caller waits. -/
def RLock (mu : RWMutex) : Option RWMutex :=
  if mu.writer = false then some { mu with readers := mu.readers + 1 } else none

/-- `mu.RUnlock()`: releases one reader; `none` is the fatal error raised when
no reader holds the mutex. -/
def RUnlock (mu : RWMutex) : Option RWMutex :=
  if 0 < mu.readers then some { mu with readers := mu.readers - 1 } else none

end RWMutex

/-! ## Go maps -/

/-- Value of type `map[K]V`: the nil map, or an allocated map.  `tbl` holds
the entries stored under keys that are equal to themselves; `unfound` lists
the entries stored under keys that are not, which no lookup finds. -/
inductive GoMap (K V : Type) where
  | nil
  | alloc (tbl : K → Option V) (unfound : List (K × V))

namespace GoMap

variable {K V : Type}

/-- Result of `make(map[K]V)`: an allocated map without entries. -/
def make : GoMap K V := alloc (fun _ => none) []

/-- Entry that a lookup of `key` finds in `d`, if there is one: an entry whose
key is `==` to `key`.  There is none in a nil map, none for a key that cannot
be hashed, and none for a key that is not equal to itself. -/
def find? [GoKey K] (d : GoMap K V) (key : K) : Option V :=
  match d with
  | nil => none
  | alloc tbl _ => if GoKey.hashable key && GoKey.selfEqual key then tbl key else none

/-- Whether `d` is the nil map. -/
def isNil (d : GoMap K V) : Bool :=
  match d with
  | nil => true
  | alloc _ _ => false

/-- Index expression `val, ok := d[key]`: the stored value and `true`, or the
zero value of `V` and `false`; `none` is the panic raised when `key` cannot be
hashed, which a nil or empty map raises too. -/
def index [GoKey K] [Inhabited V] (d : GoMap K V) (key : K) : Option (V × Bool) :=
  if GoKey.hashable key then
    match d.find? key with
    | some v => some (v, true)
    | none => some (default, false)
  else none

/-- Assignment `d[key] = value`; `none` is the panic raised by an assignment to
an entry of a nil map or with a key that cannot be hashed.  Under a key equal to
itself the entry is set; under a key that is not, one more entry is stored. -/
def assign [DecidableEq K] [GoKey K] (d : GoMap K V) (key : K) (value : V) :
    Option (GoMap K V) :=
  match d with
  | nil => none
  | alloc tbl unfound =>
    if GoKey.hashable key then
      if GoKey.selfEqual key then
        some (alloc (fun x => if x = key then some value else tbl x) unfound)
      else some (alloc tbl ((key, value) :: unfound))
    else none

end GoMap

/-! ## `KeyError` -/

/-- Type `KeyError`, the error value for a missing key. -/
structure KeyError where
  Key : Iface
deriving DecidableEq, Repr

/-- Method `Error`: `"Key error: " + e.Key.(string)`.  The type assertion
panics unless the dynamic type of `e.Key` is `string`; `none` is that panic. -/
def KeyError.Error (e : KeyError) : Option String :=
  match e.Key with
  | Iface.string s => some ("Key error: " ++ s)
  | _ => none

/-! ## `SafeMap` -/

/-- Type `SafeMap[K, V]`: the mutex and the guarded map. -/
structure SafeMap (K V : Type) where
  mu : RWMutex
  data : GoMap K V

variable {K V : Type}

/-- Function `NewSafeMap`: an unlocked mutex and `make(map[K]V)`. -/
def NewSafeMap : SafeMap K V :=
  { mu := RWMutex.zero, data := GoMap.make }

namespace SafeMap

/-- Method `Insert`: `Lock`, deferred `Unlock`, then `m.data[key] = value`. -/
def Insert [DecidableEq K] [GoKey K] (m : SafeMap K V) (key : K) (value : V) :
    Outcome (SafeMap K V) Unit :=
  match m.mu.Lock with
  | none => Outcome.blocked
  | some held =>
    match m.data.assign key value with
    | none =>
      match held.Unlock with
      | none => Outcome.fatal
      | some free => Outcome.panicked { mu := free, data := m.data }
    | some d =>
      match held.Unlock with
      | none => Outcome.fatal
      | some free => Outcome.returned { mu := free, data := d } ()

/-- Method `Get`: `RLock`, deferred `RUnlock`, then `val, ok := m.data[key]`,
which may panic; returns `val` with a `KeyError` when `ok` is false and with a
nil error otherwise. -/
def Get [GoKey K] [Inhabited V] [ToIface K] (m : SafeMap K V) (key : K) :
    Outcome (SafeMap K V) (V × Option KeyError) :=
  match m.mu.RLock with
  | none => Outcome.blocked
  | some held =>
    match m.data.index key with
    | none =>
      match held.RUnlock with
      | none => Outcome.fatal
      | some free => Outcome.panicked { mu := free, data := m.data }
    | some (val, ok) =>
      match held.RUnlock with
      | none => Outcome.fatal
      | some free =>
        if !ok then
          Outcome.returned { mu := free, data := m.data }
            (val, some { Key := ToIface.toIface key })
        else
          Outcome.returned { mu := free, data := m.data } (val, none)

/-- Method `Update`: `Lock`, deferred `Unlock`, then `_, ok := m.data[key]`,
which may panic; returns a `KeyError` when `ok` is false, and otherwise assigns
`m.data[key] = value` and returns a nil error. -/
def Update [DecidableEq K] [GoKey K] [Inhabited V] [ToIface K]
    (m : SafeMap K V) (key : K) (value : V) :
    Outcome (SafeMap K V) (Option KeyError) :=
  match m.mu.Lock with
  | none => Outcome.blocked
  | some held =>
    match m.data.index key with
    | none =>
      match held.Unlock with
      | none => Outcome.fatal
      | some free => Outcome.panicked { mu := free, data := m.data }
    | some (_, ok) =>
      if !ok then
        match held.Unlock with
        | none => Outcome.fatal
        | some free =>
          Outcome.returned { mu := free, data := m.data } (some { Key := ToIface.toIface key })
      else
        match m.data.assign key value with
        | none =>
          match held.Unlock with
          | none => Outcome.fatal
          | some free => Outcome.panicked { mu := free, data := m.data }
        | some d =>
          match held.Unlock with
          | none => Outcome.fatal
          | some free => Outcome.returned { mu := free, data := d } none

/-- Method `HasKey`: `RLock`, deferred `RUnlock`, then `_, ok := m.data[key]`,
which may panic; returns `ok`. -/
def HasKey [GoKey K] [Inhabited V] (m : SafeMap K V) (key : K) :
    Outcome (SafeMap K V) Bool :=
  match m.mu.RLock with
  | none => Outcome.blocked
  | some held =>
    match m.data.index key with
    | none =>
      match held.RUnlock with
      | none => Outcome.fatal
      | some free => Outcome.panicked { mu := free, data := m.data }
    | some (_, ok) =>
      match held.RUnlock with
      | none => Outcome.fatal
      | some free => Outcome.returned { mu := free, data := m.data } ok

/-- State of a container between calls: nobody holds the lock and the map is
allocated.  `NewSafeMap` is such a state and every call that starts in one
ends in one. -/
def Ready (m : SafeMap K V) : Prop :=
  m.mu = RWMutex.zero ∧ m.data.isNil = false

instance (m : SafeMap K V) : Decidable m.Ready := by
  unfold Ready; infer_instance

end SafeMap

/-! ## Sequences of calls -/

/-- State in which a call returned, if it returned. -/
def Outcome.state? {σ α : Type} (o : Outcome σ α) : Option σ :=
  match o with
  | Outcome.returned s _ => some s
  | _ => none

/-- State in which a call ended, if it ended: by a return, or by a panic that
the caller recovers from. -/
def Outcome.ended? {σ α : Type} (o : Outcome σ α) : Option σ :=
  match o with
  | Outcome.returned s _ => some s
  | Outcome.panicked s => some s
  | _ => none

/-- One call of a method of the container, with its arguments. -/
inductive Call (K V : Type) where
  | Insert (key : K) (value : V)
  | Get (key : K)
  | Update (key : K) (value : V)
  | HasKey (key : K)

/-- Key argument of a call. -/
def Call.key (c : Call K V) : K :=
  match c with
  | Call.Insert key _ => key
  | Call.Get key => key
  | Call.Update key _ => key
  | Call.HasKey key => key

/-- State after the call `c` made in state `m`, if the call returns. -/
def SafeMap.call [DecidableEq K] [GoKey K] [Inhabited V] [ToIface K]
    (m : SafeMap K V) (c : Call K V) : Option (SafeMap K V) :=
  match c with
  | Call.Insert key value => (m.Insert key value).state?
  | Call.Get key => (m.Get key).state?
  | Call.Update key value => (m.Update key value).state?
  | Call.HasKey key => (m.HasKey key).state?

/-- State after the calls `cs` made one after the other from state `m`, if
each of them returns. -/
def SafeMap.run [DecidableEq K] [GoKey K] [Inhabited V] [ToIface K]
    (m : SafeMap K V) (cs : List (Call K V)) : Option (SafeMap K V) :=
  match cs with
  | [] => some m
  | c :: rest =>
    match m.call c with
    | none => none
    | some m1 => SafeMap.run m1 rest

/-- State after the call `c` made in state `m`, if the call ends, by a return
or by a panic. -/
def SafeMap.callEnd [DecidableEq K] [GoKey K] [Inhabited V] [ToIface K]
    (m : SafeMap K V) (c : Call K V) : Option (SafeMap K V) :=
  match c with
  | Call.Insert key value => (m.Insert key value).ended?
  | Call.Get key => (m.Get key).ended?
  | Call.Update key value => (m.Update key value).ended?
  | Call.HasKey key => (m.HasKey key).ended?

/-- State after the calls `cs` made one after the other from state `m`, if
each of them ends, by a return or by a panic that the caller recovers from. -/
def SafeMap.runEnd [DecidableEq K] [GoKey K] [Inhabited V] [ToIface K]
    (m : SafeMap K V) (cs : List (Call K V)) : Option (SafeMap K V) :=
  match cs with
  | [] => some m
  | c :: rest =>
    match m.callEnd c with
    | none => none
    | some m1 => SafeMap.runEnd m1 rest

/-- Container that holds the one entry `"x"` with value `1`: the state after
`Insert("x", 1)` on a new `SafeMap[string, int]`. -/
def oneEntry : SafeMap String Int :=
  { mu := RWMutex.zero, data := GoMap.alloc (fun x => if x = "x" then some 1 else none) [] }

/-- Key `[]int{1}` of a `SafeMap[any, int]`: a key that cannot be hashed. -/
def sliceKey : Iface := Iface.slice [1]

/-! ## Lemmas on single calls -/

section Lemmas

theorem SafeMap.ready_iff (m : SafeMap K V) :
    m.Ready ↔ ∃ tbl unfound, m = { mu := RWMutex.zero, data := GoMap.alloc tbl unfound } := by
  constructor
  · rintro ⟨hmu, hd⟩
    obtain ⟨mu, data⟩ := m
    cases data with
    | nil => simp [GoMap.isNil] at hd
    | alloc tbl unfound => exact ⟨tbl, unfound, by simp at hmu; simp [hmu]⟩
  · rintro ⟨tbl, unfound, rfl⟩
    exact ⟨rfl, rfl⟩

theorem SafeMap.ready_new : (NewSafeMap : SafeMap K V).Ready := ⟨rfl, rfl⟩

theorem SafeMap.ready_oneEntry : oneEntry.Ready := ⟨rfl, rfl⟩

theorem SafeMap.find?_new [GoKey K] (key : K) :
    (NewSafeMap : SafeMap K V).data.find? key = none := by
  simp [NewSafeMap, GoMap.make, GoMap.find?]

theorem SafeMap.insert_new_oneEntry :
    (NewSafeMap : SafeMap String Int).Insert "x" 1 = Outcome.returned oneEntry () := by
  simp [NewSafeMap, GoMap.make, oneEntry, SafeMap.Insert, RWMutex.Lock, RWMutex.Unlock,
    RWMutex.zero, GoMap.assign, GoKey.hashable, GoKey.selfEqual]

theorem SafeMap.update_oneEntry :
    oneEntry.Update "x" 2
      = Outcome.returned
          { mu := RWMutex.zero,
            data := GoMap.alloc
              (fun x => if x = "x" then some 2 else if x = "x" then some 1 else none) [] }
          none := by
  simp [oneEntry, SafeMap.Update, RWMutex.Lock, RWMutex.Unlock, RWMutex.zero, GoMap.index,
    GoMap.find?, GoMap.assign, GoKey.hashable, GoKey.selfEqual]

/-- A key under which a lookup finds an entry is hashable and equal to
itself. -/
theorem GoMap.find?_some [GoKey K] (d : GoMap K V) (key : K) (w : V)
    (h : d.find? key = some w) : GoKey.hashable key = true ∧ GoKey.selfEqual key = true := by
  cases d with
  | nil => simp [GoMap.find?] at h
  | alloc tbl unfound =>
    by_cases hh : GoKey.hashable key = true <;> by_cases hs : GoKey.selfEqual key = true <;>
      simp_all [GoMap.find?]

theorem SafeMap.get_ready [GoKey K] [Inhabited V] [ToIface K] (m : SafeMap K V) (key : K)
    (hm : m.Ready) (hh : GoKey.hashable key = true) :
    m.Get key = Outcome.returned m
      (match m.data.find? key with
        | some v => (v, none)
        | none => (default, some { Key := ToIface.toIface key })) := by
  obtain ⟨tbl, unfound, rfl⟩ := (SafeMap.ready_iff m).1 hm
  cases h : (GoMap.alloc tbl unfound).find? key <;>
    simp [SafeMap.Get, RWMutex.RLock, RWMutex.RUnlock, RWMutex.zero, GoMap.index, hh, h]

theorem SafeMap.hasKey_ready [GoKey K] [Inhabited V] (m : SafeMap K V) (key : K)
    (hm : m.Ready) (hh : GoKey.hashable key = true) :
    m.HasKey key = Outcome.returned m (m.data.find? key).isSome := by
  obtain ⟨tbl, unfound, rfl⟩ := (SafeMap.ready_iff m).1 hm
  cases h : (GoMap.alloc tbl unfound).find? key <;>
    simp [SafeMap.HasKey, RWMutex.RLock, RWMutex.RUnlock, RWMutex.zero, GoMap.index, hh, h]

theorem SafeMap.update_absent [DecidableEq K] [GoKey K] [Inhabited V] [ToIface K]
    (m : SafeMap K V) (key : K) (value : V) (hm : m.Ready)
    (hh : GoKey.hashable key = true) (hf : m.data.find? key = none) :
    m.Update key value = Outcome.returned m (some { Key := ToIface.toIface key }) := by
  obtain ⟨tbl, unfound, rfl⟩ := (SafeMap.ready_iff m).1 hm
  simp only [] at hf
  simp [SafeMap.Update, RWMutex.Lock, RWMutex.Unlock, RWMutex.zero, GoMap.index, hh, hf]

theorem SafeMap.update_present [DecidableEq K] [GoKey K] [Inhabited V] [ToIface K]
    (m : SafeMap K V) (key : K) (value w : V) (hm : m.Ready)
    (hf : m.data.find? key = some w) :
    ∃ m1, m.Update key value = Outcome.returned m1 none ∧
      m.Insert key value = Outcome.returned m1 () := by
  obtain ⟨hh, hs⟩ := GoMap.find?_some m.data key w hf
  obtain ⟨tbl, unfound, rfl⟩ := (SafeMap.ready_iff m).1 hm
  simp only [] at hf
  refine ⟨{ mu := RWMutex.zero,
            data := GoMap.alloc (fun x => if x = key then some value else tbl x) unfound },
    ?_, ?_⟩
  · simp [SafeMap.Update, RWMutex.Lock, RWMutex.Unlock, RWMutex.zero, GoMap.index, GoMap.assign,
      hh, hs, hf]
  · simp [SafeMap.Insert, RWMutex.Lock, RWMutex.Unlock, RWMutex.zero, GoMap.assign, hh, hs]

theorem SafeMap.insert_returns [DecidableEq K] [GoKey K] (m : SafeMap K V) (key : K) (value : V)
    (hm : m.Ready) (hh : GoKey.hashable key = true) :
    ∃ m1, m.Insert key value = Outcome.returned m1 () := by
  obtain ⟨tbl, unfound, rfl⟩ := (SafeMap.ready_iff m).1 hm
  by_cases hs : GoKey.selfEqual key = true <;>
    simp [SafeMap.Insert, RWMutex.Lock, RWMutex.Unlock, RWMutex.zero, GoMap.assign, hh, hs]

/-- The state in which `Insert` returns is a container state; a lookup of the
inserted key finds the new value when the key is equal to itself, and every
other lookup finds what it found before. -/
theorem SafeMap.insert_spec [DecidableEq K] [GoKey K] (m m1 : SafeMap K V) (key : K) (value : V)
    (hm : m.Ready) (h : m.Insert key value = Outcome.returned m1 ()) :
    m1.Ready ∧ ∀ x, m1.data.find? x
      = if x = key ∧ GoKey.selfEqual key = true then some value else m.data.find? x := by
  obtain ⟨tbl, unfound, rfl⟩ := (SafeMap.ready_iff m).1 hm
  by_cases hh : GoKey.hashable key = true
  · by_cases hs : GoKey.selfEqual key = true
    · simp [SafeMap.Insert, RWMutex.Lock, RWMutex.Unlock, RWMutex.zero, GoMap.assign, hh, hs] at h
      subst h
      refine ⟨⟨rfl, rfl⟩, fun x => ?_⟩
      by_cases hx : x = key
      · subst hx
        simp [GoMap.find?, hh, hs]
      · simp [GoMap.find?, hx]
    · simp [SafeMap.Insert, RWMutex.Lock, RWMutex.Unlock, RWMutex.zero, GoMap.assign, hh, hs] at h
      subst h
      refine ⟨⟨rfl, rfl⟩, fun x => ?_⟩
      simp [GoMap.find?, hs]
  · simp [SafeMap.Insert, RWMutex.Lock, RWMutex.Unlock, RWMutex.zero, GoMap.assign, hh] at h

/-- With a key that cannot be hashed, every method panics and leaves the
container state as it was. -/
theorem SafeMap.unhashable_panics [DecidableEq K] [GoKey K] [Inhabited V] [ToIface K]
    (m : SafeMap K V) (key : K) (value : V) (hm : m.Ready)
    (hh : GoKey.hashable key = false) :
    m.Insert key value = Outcome.panicked m ∧ m.Get key = Outcome.panicked m ∧
      m.Update key value = Outcome.panicked m ∧ m.HasKey key = Outcome.panicked m := by
  obtain ⟨tbl, unfound, rfl⟩ := (SafeMap.ready_iff m).1 hm
  refine ⟨?_, ?_, ?_, ?_⟩
  · simp [SafeMap.Insert, RWMutex.Lock, RWMutex.Unlock, RWMutex.zero, GoMap.assign, hh]
  · simp [SafeMap.Get, RWMutex.RLock, RWMutex.RUnlock, RWMutex.zero, GoMap.index, hh]
  · simp [SafeMap.Update, RWMutex.Lock, RWMutex.Unlock, RWMutex.zero, GoMap.index, hh]
  · simp [SafeMap.HasKey, RWMutex.RLock, RWMutex.RUnlock, RWMutex.zero, GoMap.index, hh]

/-- On the zero value of `SafeMap`, whose map is nil, `Insert` panics; the
deferred `Unlock` has run and the state is as before. -/
theorem SafeMap.insert_nil_panics [DecidableEq K] [GoKey K] (key : K) (value : V) :
    SafeMap.Insert { mu := RWMutex.zero, data := GoMap.nil } key value
      = Outcome.panicked { mu := RWMutex.zero, data := GoMap.nil } := by
  simp [SafeMap.Insert, RWMutex.Lock, RWMutex.Unlock, RWMutex.zero, GoMap.assign]

/-- A call made in a container state ends, by a return when its key can be
hashed and by a panic otherwise; it leaves a container state, keeps every key
that was present, and adds no key other than the one of an `Insert`. -/
theorem SafeMap.call_ready [DecidableEq K] [GoKey K] [Inhabited V] [ToIface K]
    (m : SafeMap K V) (c : Call K V) (hm : m.Ready) :
    ∃ m1, m.callEnd c = some m1 ∧ m1.Ready ∧
      (GoKey.hashable c.key = true → m.call c = some m1) ∧
      (∀ k, (m.data.find? k).isSome → (m1.data.find? k).isSome) ∧
      (∀ k, (∀ v, c ≠ Call.Insert k v) → m.data.find? k = none → m1.data.find? k = none) := by
  by_cases hh : GoKey.hashable c.key = true
  · cases c with
    | Insert key value =>
      obtain ⟨m1, h1⟩ := SafeMap.insert_returns m key value hm hh
      obtain ⟨hr, hf⟩ := SafeMap.insert_spec m m1 key value hm h1
      refine ⟨m1, by simp [SafeMap.callEnd, h1, Outcome.ended?], hr,
        fun _ => by simp [SafeMap.call, h1, Outcome.state?], ?_, ?_⟩
      · intro k hk
        rw [hf k]
        split <;> simp_all
      · intro k hc hk
        have hne : k ≠ key := fun h => hc value (by rw [h])
        rw [hf k]
        simp [hne, hk]
    | Get key =>
      have h1 := SafeMap.get_ready m key hm hh
      exact ⟨m, by simp [SafeMap.callEnd, h1, Outcome.ended?], hm,
        fun _ => by simp [SafeMap.call, h1, Outcome.state?], fun _ h => h, fun _ _ h => h⟩
    | Update key value =>
      cases hfk : m.data.find? key with
      | none =>
        have h1 := SafeMap.update_absent m key value hm hh hfk
        exact ⟨m, by simp [SafeMap.callEnd, h1, Outcome.ended?], hm,
          fun _ => by simp [SafeMap.call, h1, Outcome.state?], fun _ h => h, fun _ _ h => h⟩
      | some w =>
        obtain ⟨m1, h1, h2⟩ := SafeMap.update_present m key value w hm hfk
        obtain ⟨hr, hf⟩ := SafeMap.insert_spec m m1 key value hm h2
        refine ⟨m1, by simp [SafeMap.callEnd, h1, Outcome.ended?], hr,
          fun _ => by simp [SafeMap.call, h1, Outcome.state?], ?_, ?_⟩
        · intro k hk
          rw [hf k]
          split <;> simp_all
        · intro k _ hk
          have hne : k ≠ key := by
            intro hkk
            rw [hkk, hfk] at hk
            simp at hk
          rw [hf k]
          simp [hne, hk]
    | HasKey key =>
      have h1 := SafeMap.hasKey_ready (V := V) m key hm hh
      exact ⟨m, by simp [SafeMap.callEnd, h1, Outcome.ended?], hm,
        fun _ => by simp [SafeMap.call, h1, Outcome.state?], fun _ h => h, fun _ _ h => h⟩
  · have hh2 : GoKey.hashable c.key = false := by simpa using hh
    refine ⟨m, ?_, hm, fun h => absurd h hh, fun _ h => h, fun _ _ h => h⟩
    cases c with
    | Insert key value =>
      simp [SafeMap.callEnd, (SafeMap.unhashable_panics m key value hm hh2).1, Outcome.ended?]
    | Get key =>
      simp [SafeMap.callEnd, (SafeMap.unhashable_panics m key default hm hh2).2.1,
        Outcome.ended?]
    | Update key value =>
      simp [SafeMap.callEnd, (SafeMap.unhashable_panics m key value hm hh2).2.2.1,
        Outcome.ended?]
    | HasKey key =>
      simp [SafeMap.callEnd, (SafeMap.unhashable_panics m key default hm hh2).2.2.2,
        Outcome.ended?]

/-- A sequence of calls made from a container state ends at every call, by a
return at every call when all keys can be hashed; it ends in a container
state, keeps every key that was present, and adds no key for which the
sequence holds no `Insert`. -/
theorem SafeMap.run_ready [DecidableEq K] [GoKey K] [Inhabited V] [ToIface K]
    (cs : List (Call K V)) (m : SafeMap K V) (hm : m.Ready) :
    ∃ m1, m.runEnd cs = some m1 ∧ m1.Ready ∧
      ((∀ c ∈ cs, GoKey.hashable c.key = true) → m.run cs = some m1) ∧
      (∀ k, (m.data.find? k).isSome → (m1.data.find? k).isSome) ∧
      (∀ k, (∀ v, Call.Insert k v ∉ cs) → m.data.find? k = none → m1.data.find? k = none) := by
  induction cs generalizing m with
  | nil => exact ⟨m, rfl, hm, fun _ => rfl, fun _ h => h, fun _ _ h => h⟩
  | cons c rest ih =>
    obtain ⟨m1, hc, hr1, hret1, hkeep1, hnew1⟩ := SafeMap.call_ready m c hm
    obtain ⟨m2, hrun, hr2, hret2, hkeep2, hnew2⟩ := ih m1 hr1
    refine ⟨m2, by simp [SafeMap.runEnd, hc, hrun], hr2, ?_,
      fun k hk => hkeep2 k (hkeep1 k hk), ?_⟩
    · intro hall
      have h1 := hret1 (hall c (List.mem_cons_self _ _))
      have h2 := hret2 (fun c2 hc2 => hall c2 (List.mem_cons_of_mem _ hc2))
      simp [SafeMap.run, h1, h2]
    · intro k hno hk
      apply hnew2 k (fun v hv => hno v (List.mem_cons_of_mem _ hv))
      exact hnew1 k (fun v hv => hno v (by rw [hv]; exact List.mem_cons_self _ _)) hk

/-- Two container states in which a lookup of `key` finds the same give the
same results of `Get(key)` and `HasKey(key)`: the same returned values when
`key` can be hashed, and a panic in both otherwise. -/
theorem SafeMap.reads_agree [DecidableEq K] [GoKey K] [Inhabited V] [ToIface K]
    (m m1 : SafeMap K V) (key : K) (hm : m.Ready) (hm1 : m1.Ready)
    (hf : m1.data.find? key = m.data.find? key) :
    if GoKey.hashable key = true then
      (∃ r, m.Get key = Outcome.returned m r ∧ m1.Get key = Outcome.returned m1 r) ∧
      (∃ b, m.HasKey key = Outcome.returned m b ∧ m1.HasKey key = Outcome.returned m1 b)
    else
      (m.Get key = Outcome.panicked m ∧ m1.Get key = Outcome.panicked m1) ∧
      (m.HasKey key = Outcome.panicked m ∧ m1.HasKey key = Outcome.panicked m1) := by
  by_cases hh : GoKey.hashable key = true
  · rw [if_pos hh]
    refine ⟨⟨_, SafeMap.get_ready m key hm hh, ?_⟩, ⟨_, SafeMap.hasKey_ready m key hm hh, ?_⟩⟩
    · rw [SafeMap.get_ready m1 key hm1 hh, hf]
    · rw [SafeMap.hasKey_ready m1 key hm1 hh, hf]
  · rw [if_neg hh]
    have hh2 : GoKey.hashable key = false := by simpa using hh
    have h := SafeMap.unhashable_panics m key default hm hh2
    have h1 := SafeMap.unhashable_panics m1 key default hm1 hh2
    exact ⟨⟨h.2.1, h1.2.1⟩, ⟨h.2.2.2, h1.2.2.2⟩⟩

end Lemmas

/-! ## The claims -/

section Claims

/-- C1, at a key that is not equal to itself: on a new `SafeMap[float64, int]`,
`Insert(NaN, 1)` returns, and `Get(NaN)` then returns the zero value with
`KeyError{Key: NaN}`, not `(1, nil)`. -/
theorem C1_insert_then_get_counterexample :
    (∃ m1, (NewSafeMap : SafeMap Float64 Int).Insert Float64.NaN 1 = Outcome.returned m1 () ∧
        m1.Get Float64.NaN
          = Outcome.returned m1 (0, some { Key := Iface.float64 Float64.NaN })) ∧
      ¬ ∃ m1, (NewSafeMap : SafeMap Float64 Int).Insert Float64.NaN 1 = Outcome.returned m1 () ∧
        m1.Get Float64.NaN = Outcome.returned m1 (1, none) := by
  obtain ⟨m1, h1⟩ := SafeMap.insert_returns (NewSafeMap : SafeMap Float64 Int) Float64.NaN 1
    SafeMap.ready_new rfl
  obtain ⟨hr, hf⟩ := SafeMap.insert_spec _ m1 Float64.NaN 1 SafeMap.ready_new h1
  have hk : m1.data.find? Float64.NaN = none := by
    rw [hf]
    simp [GoKey.selfEqual, NewSafeMap, GoMap.make, GoMap.find?]
  have hg := SafeMap.get_ready m1 Float64.NaN hr rfl
  rw [hk] at hg
  refine ⟨⟨m1, h1, hg⟩, ?_⟩
  rintro ⟨m2, h2, hg2⟩
  rw [h1] at h2
  injection h2 with h3 _
  subst h3
  rw [hg] at hg2
  simp at hg2

/-- C1, amended. For every container state `m`, every key `k` that can be
hashed and is equal to itself (`k == k`), and every value `v`: `Insert(k, v)`
returns, and in the state it leaves `Get(k)` returns the pair of `v` and a nil
error. -/
theorem C1_insert_then_get [DecidableEq K] [GoKey K] [Inhabited V] [ToIface K]
    (m : SafeMap K V) (k : K) (v : V) (hm : m.Ready)
    (hh : GoKey.hashable k = true) (hs : GoKey.selfEqual k = true) :
    ∃ m1, m.Insert k v = Outcome.returned m1 () ∧ m1.Get k = Outcome.returned m1 (v, none) := by
  obtain ⟨m1, h1⟩ := SafeMap.insert_returns m k v hm hh
  obtain ⟨hr, hf⟩ := SafeMap.insert_spec m m1 k v hm h1
  refine ⟨m1, h1, ?_⟩
  rw [SafeMap.get_ready m1 k hr hh, hf k]
  simp [hs]

/-- Witness of C1: scenario B of the specification, `Insert("x", 1)` then
`Get("x")` on a new container. -/
theorem C1_insert_then_get_witness :
    (NewSafeMap : SafeMap String Int).Ready ∧
      GoKey.hashable ("x" : String) = true ∧ GoKey.selfEqual ("x" : String) = true ∧
      ∃ m1, (NewSafeMap : SafeMap String Int).Insert "x" 1 = Outcome.returned m1 () ∧
        m1.Get "x" = Outcome.returned m1 (1, none) :=
  ⟨SafeMap.ready_new, rfl, rfl, C1_insert_then_get NewSafeMap "x" 1 SafeMap.ready_new rfl rfl⟩

/-- C2, at a key that cannot be hashed: on a new `SafeMap[any, int]` the key
`[]int{1}` is absent, and `Get` panics in `m.data[key]` where the claim has it
return the zero value with a `KeyError`. -/
theorem C2_get_error_iff_absent_counterexample :
    (NewSafeMap : SafeMap Iface Int).data.find? sliceKey = none ∧
      (NewSafeMap : SafeMap Iface Int).Get sliceKey = Outcome.panicked NewSafeMap ∧
      ¬ ((NewSafeMap : SafeMap Iface Int).data.find? sliceKey = none →
          (NewSafeMap : SafeMap Iface Int).Get sliceKey
            = Outcome.returned NewSafeMap (default, some { Key := ToIface.toIface sliceKey })) := by
  have hp := (SafeMap.unhashable_panics (NewSafeMap : SafeMap Iface Int) sliceKey 0
    SafeMap.ready_new rfl).2.1
  refine ⟨rfl, hp, fun h => ?_⟩
  have h2 := h rfl
  rw [hp] at h2
  simp at h2

/-- C2, amended. For every container state `m` and every key `k` that can be
hashed: when `k` is present `Get(k)` returns the stored value with a nil
error; when `k` is absent it returns the zero value of `V` with a `KeyError`
whose `Key` is `k`; hence `Get(k)` returns an error if and only if `k` is
absent. -/
theorem C2_get_error_iff_absent [GoKey K] [Inhabited V] [ToIface K]
    (m : SafeMap K V) (k : K) (hm : m.Ready) (hh : GoKey.hashable k = true) :
    (∀ v, m.data.find? k = some v → m.Get k = Outcome.returned m (v, none)) ∧
    (m.data.find? k = none →
      m.Get k = Outcome.returned m (default, some { Key := ToIface.toIface k })) ∧
    (∃ r, m.Get k = Outcome.returned m r ∧ (r.2 ≠ none ↔ m.data.find? k = none)) := by
  rw [SafeMap.get_ready m k hm hh]
  cases h : m.data.find? k <;> simp

/-- Witness of C2: a container holding `"x"` with value `1`; `Get("x")` gives
`(1, nil)` and `Get("y")` gives `(0, KeyError{Key: "y"})`. -/
theorem C2_get_error_iff_absent_witness :
    oneEntry.Ready ∧
      oneEntry.Get "x" = Outcome.returned oneEntry (1, none) ∧
      oneEntry.Get "y" = Outcome.returned oneEntry (0, some { Key := Iface.string "y" }) :=
  ⟨SafeMap.ready_oneEntry,
    (C2_get_error_iff_absent oneEntry "x" SafeMap.ready_oneEntry rfl).1 1
      (by simp [oneEntry, GoMap.find?, GoKey.hashable, GoKey.selfEqual]),
    (C2_get_error_iff_absent oneEntry "y" SafeMap.ready_oneEntry rfl).2.1
      (by simp [oneEntry, GoMap.find?, GoKey.hashable, GoKey.selfEqual])⟩

/-- C3, at a key that cannot be hashed: directly after `NewSafeMap[any, int]`
(the empty sequence of calls) the never-inserted key `[]int{1}` makes `Get` and
`HasKey` panic, so neither returns what the claim says. -/
theorem C3_never_inserted_absent_counterexample :
    (NewSafeMap : SafeMap Iface Int).Get sliceKey = Outcome.panicked NewSafeMap ∧
      (NewSafeMap : SafeMap Iface Int).HasKey sliceKey = Outcome.panicked NewSafeMap ∧
      ¬ ∃ m1, (NewSafeMap : SafeMap Iface Int).run [] = some m1 ∧
        m1.Get sliceKey
          = Outcome.returned m1 (default, some { Key := ToIface.toIface sliceKey }) ∧
        m1.HasKey sliceKey = Outcome.returned m1 false := by
  have hp := SafeMap.unhashable_panics (NewSafeMap : SafeMap Iface Int) sliceKey 0
    SafeMap.ready_new rfl
  refine ⟨hp.2.1, hp.2.2.2, ?_⟩
  rintro ⟨m1, hrun, hg, -⟩
  simp only [SafeMap.run, Option.some.injEq] at hrun
  subst hrun
  rw [hp.2.1] at hg
  simp at hg

/-- C3, amended. For every key `k` that can be hashed and every finite sequence
of `Insert`, `Get`, `Update` and `HasKey` calls made on a new container, none
of them an `Insert(k, _)`: every call ends (it returns when its key can be
hashed, and otherwise panics and leaves the container as it was), and in the
state reached `Get(k)` returns a `KeyError` whose `Key` is `k` and `HasKey(k)`
returns false.  The empty sequence is the case directly after `NewSafeMap`. -/
theorem C3_never_inserted_absent [DecidableEq K] [GoKey K] [Inhabited V] [ToIface K]
    (cs : List (Call K V)) (k : K) (hh : GoKey.hashable k = true)
    (hcs : ∀ v, Call.Insert k v ∉ cs) :
    ∃ m1, (NewSafeMap : SafeMap K V).runEnd cs = some m1 ∧
      ((∀ c ∈ cs, GoKey.hashable c.key = true) → (NewSafeMap : SafeMap K V).run cs = some m1) ∧
      m1.Get k = Outcome.returned m1 (default, some { Key := ToIface.toIface k }) ∧
      m1.HasKey k = Outcome.returned m1 false := by
  obtain ⟨m1, hrun, hr, hret, -, hnew⟩ := SafeMap.run_ready cs NewSafeMap SafeMap.ready_new
  have hk : m1.data.find? k = none := hnew k hcs (SafeMap.find?_new k)
  refine ⟨m1, hrun, hret, ?_, ?_⟩
  · rw [SafeMap.get_ready m1 k hr hh, hk]
  · rw [SafeMap.hasKey_ready m1 k hr hh, hk]
    rfl

/-- Witness of C3: after `Insert("y", 1)`, `Update("x", 2)`, `Get("x")` and
`HasKey("x")` on a new container, `"x"` is still absent. -/
theorem C3_never_inserted_absent_witness :
    GoKey.hashable ("x" : String) = true ∧
      (∀ v : Int, Call.Insert "x" v ∉
        [Call.Insert "y" 1, Call.Update "x" 2, Call.Get "x", Call.HasKey "x"]) ∧
      ∃ m1, (NewSafeMap : SafeMap String Int).runEnd
          [Call.Insert "y" 1, Call.Update "x" 2, Call.Get "x", Call.HasKey "x"] = some m1 ∧
        ((∀ c ∈ [Call.Insert "y" (1 : Int), Call.Update "x" 2, Call.Get "x", Call.HasKey "x"],
            GoKey.hashable c.key = true) →
          (NewSafeMap : SafeMap String Int).run
            [Call.Insert "y" 1, Call.Update "x" 2, Call.Get "x", Call.HasKey "x"] = some m1) ∧
        m1.Get "x" = Outcome.returned m1 (default, some { Key := ToIface.toIface "x" }) ∧
        m1.HasKey "x" = Outcome.returned m1 false :=
  ⟨rfl, by simp, C3_never_inserted_absent _ "x" rfl (by simp)⟩

/-- C4, at a key that cannot be hashed: on a new `SafeMap[any, int]` the key
`[]int{1}` is absent, and `Update` panics in `m.data[key]` where the claim has
it return a `KeyError`. -/
theorem C4_update_absent_counterexample :
    (NewSafeMap : SafeMap Iface Int).data.find? sliceKey = none ∧
      (NewSafeMap : SafeMap Iface Int).Update sliceKey 2 = Outcome.panicked NewSafeMap ∧
      ¬ ((NewSafeMap : SafeMap Iface Int).Update sliceKey 2
          = Outcome.returned NewSafeMap (some { Key := ToIface.toIface sliceKey })) := by
  have hp := (SafeMap.unhashable_panics (NewSafeMap : SafeMap Iface Int) sliceKey 2
    SafeMap.ready_new rfl).2.2.1
  refine ⟨rfl, hp, fun h => ?_⟩
  rw [hp] at h
  simp at h

/-- C4, amended. For every container state `m`, key `k` that can be hashed and
is absent from `m`, and value `v`: `Update(k, v)` returns a `KeyError` whose
`Key` is `k` and leaves the state as it was, so that `HasKey(k)` is false
afterwards. -/
theorem C4_update_absent [DecidableEq K] [GoKey K] [Inhabited V] [ToIface K]
    (m : SafeMap K V) (k : K) (v : V) (hm : m.Ready) (hh : GoKey.hashable k = true)
    (hk : m.data.find? k = none) :
    m.Update k v = Outcome.returned m (some { Key := ToIface.toIface k }) ∧
      m.HasKey k = Outcome.returned m false := by
  refine ⟨SafeMap.update_absent m k v hm hh hk, ?_⟩
  rw [SafeMap.hasKey_ready m k hm hh, hk]
  rfl

/-- Witness of C4: scenario C of the specification, `Update("x", 2)` on a new
container. -/
theorem C4_update_absent_witness :
    (NewSafeMap : SafeMap String Int).Ready ∧ GoKey.hashable ("x" : String) = true ∧
      (NewSafeMap : SafeMap String Int).data.find? "x" = none ∧
      (NewSafeMap : SafeMap String Int).Update "x" 2
        = Outcome.returned NewSafeMap (some { Key := Iface.string "x" }) ∧
      (NewSafeMap : SafeMap String Int).HasKey "x" = Outcome.returned NewSafeMap false :=
  ⟨SafeMap.ready_new, rfl, rfl, C4_update_absent NewSafeMap "x" 2 SafeMap.ready_new rfl rfl⟩

/-- C5. For every container state `m`, key `k` and value `v`: when `k` is
present, `Update(k, v)` returns a nil error and `Get(k)` then returns `v` with
a nil error; and `Update(k, v)` returns an error only when `k` is absent: with
a key that can be hashed it returns, with an error only when `k` is absent, and
with a key that cannot be hashed it panics, returns no error and leaves the
state as it was. -/
theorem C5_update_present [DecidableEq K] [GoKey K] [Inhabited V] [ToIface K]
    (m : SafeMap K V) (k : K) (v : V) (hm : m.Ready) :
    ((m.data.find? k).isSome →
      ∃ m1, m.Update k v = Outcome.returned m1 none ∧
        m1.Get k = Outcome.returned m1 (v, none)) ∧
    (if GoKey.hashable k = true then
        ∃ m1 r, m.Update k v = Outcome.returned m1 r ∧ (r ≠ none → m.data.find? k = none)
      else m.Update k v = Outcome.panicked m) := by
  constructor
  · intro hp
    obtain ⟨w, hw⟩ := Option.isSome_iff_exists.1 hp
    obtain ⟨hh, hs⟩ := GoMap.find?_some m.data k w hw
    obtain ⟨m1, h1, h2⟩ := SafeMap.update_present m k v w hm hw
    obtain ⟨hr, hf⟩ := SafeMap.insert_spec m m1 k v hm h2
    refine ⟨m1, h1, ?_⟩
    rw [SafeMap.get_ready m1 k hr hh, hf k]
    simp [hs]
  · by_cases hh : GoKey.hashable k = true
    · rw [if_pos hh]
      cases hfk : m.data.find? k with
      | none => exact ⟨m, _, SafeMap.update_absent m k v hm hh hfk, fun _ => rfl⟩
      | some w =>
        obtain ⟨m1, h1, -⟩ := SafeMap.update_present m k v w hm hfk
        exact ⟨m1, none, h1, fun h => absurd rfl h⟩
    · rw [if_neg hh]
      exact (SafeMap.unhashable_panics m k v hm (by simpa using hh)).2.2.1

/-- Witness of C5: scenario D of the specification, `Update("x", 2)` on a
container holding `"x"` with value `1`, then `Get("x")`. -/
theorem C5_update_present_witness :
    oneEntry.Ready ∧
      ∃ m1, oneEntry.Update "x" 2 = Outcome.returned m1 none ∧
        m1.Get "x" = Outcome.returned m1 (2, none) :=
  ⟨SafeMap.ready_oneEntry,
    (C5_update_present oneEntry "x" 2 SafeMap.ready_oneEntry).1
      (by simp [oneEntry, GoMap.find?, GoKey.hashable, GoKey.selfEqual])⟩

/-- C6, at a key that is not equal to itself: on a new `SafeMap[float64, int]`,
`Insert(NaN, 1)` and `Insert(NaN, 2)` return, and `Get(NaN)` then returns a
`KeyError`, not `(2, nil)`. -/
theorem C6_insert_overwrites_counterexample :
    ¬ ∃ m1 m2,
        (NewSafeMap : SafeMap Float64 Int).Insert Float64.NaN 1 = Outcome.returned m1 () ∧
        m1.Insert Float64.NaN 2 = Outcome.returned m2 () ∧
        m2.Get Float64.NaN = Outcome.returned m2 (2, none) := by
  rintro ⟨m1, m2, h1, h2, hg⟩
  obtain ⟨hr1, hf1⟩ := SafeMap.insert_spec _ m1 Float64.NaN 1 SafeMap.ready_new h1
  obtain ⟨hr2, hf2⟩ := SafeMap.insert_spec m1 m2 Float64.NaN 2 hr1 h2
  have hk : m2.data.find? Float64.NaN = none := by
    rw [hf2, hf1]
    simp [GoKey.selfEqual, NewSafeMap, GoMap.make, GoMap.find?]
  rw [SafeMap.get_ready m2 Float64.NaN hr2 rfl, hk] at hg
  simp at hg

/-- C6, amended. For every container state `m`, key `k` that can be hashed and
is equal to itself (`k == k`), and values `v1`, `v2`: `Insert(k, v1)` and then
`Insert(k, v2)` both return, and `Get(k)` then returns `v2` with a nil
error. -/
theorem C6_insert_overwrites [DecidableEq K] [GoKey K] [Inhabited V] [ToIface K]
    (m : SafeMap K V) (k : K) (v1 v2 : V) (hm : m.Ready)
    (hh : GoKey.hashable k = true) (hs : GoKey.selfEqual k = true) :
    ∃ m1 m2, m.Insert k v1 = Outcome.returned m1 () ∧
      m1.Insert k v2 = Outcome.returned m2 () ∧
      m2.Get k = Outcome.returned m2 (v2, none) := by
  obtain ⟨m1, h1⟩ := SafeMap.insert_returns m k v1 hm hh
  obtain ⟨hr1, -⟩ := SafeMap.insert_spec m m1 k v1 hm h1
  obtain ⟨m2, h2⟩ := SafeMap.insert_returns m1 k v2 hr1 hh
  obtain ⟨hr2, hf2⟩ := SafeMap.insert_spec m1 m2 k v2 hr1 h2
  refine ⟨m1, m2, h1, h2, ?_⟩
  rw [SafeMap.get_ready m2 k hr2 hh, hf2 k]
  simp [hs]

/-- Witness of C6: `Insert("x", 1)` then `Insert("x", 2)` on a new container. -/
theorem C6_insert_overwrites_witness :
    (NewSafeMap : SafeMap String Int).Ready ∧
      GoKey.hashable ("x" : String) = true ∧ GoKey.selfEqual ("x" : String) = true ∧
      ∃ m1 m2, (NewSafeMap : SafeMap String Int).Insert "x" 1 = Outcome.returned m1 () ∧
        m1.Insert "x" 2 = Outcome.returned m2 () ∧
        m2.Get "x" = Outcome.returned m2 (2, none) :=
  ⟨SafeMap.ready_new, rfl, rfl,
    C6_insert_overwrites NewSafeMap "x" 1 2 SafeMap.ready_new rfl rfl⟩

/-- C7, at a key that is not equal to itself: on a new `SafeMap[float64, int]`,
`Insert(NaN, 1)` returns, and `HasKey(NaN)` then returns false, not true. -/
theorem C7_hasKey_after_write_counterexample :
    (∃ m1, (NewSafeMap : SafeMap Float64 Int).Insert Float64.NaN 1 = Outcome.returned m1 () ∧
        m1.HasKey Float64.NaN = Outcome.returned m1 false) ∧
      ¬ ∃ m1, (NewSafeMap : SafeMap Float64 Int).Insert Float64.NaN 1 = Outcome.returned m1 () ∧
        m1.HasKey Float64.NaN = Outcome.returned m1 true := by
  obtain ⟨m1, h1⟩ := SafeMap.insert_returns (NewSafeMap : SafeMap Float64 Int) Float64.NaN 1
    SafeMap.ready_new rfl
  obtain ⟨hr, hf⟩ := SafeMap.insert_spec _ m1 Float64.NaN 1 SafeMap.ready_new h1
  have hk : m1.data.find? Float64.NaN = none := by
    rw [hf]
    simp [GoKey.selfEqual, NewSafeMap, GoMap.make, GoMap.find?]
  have hg := SafeMap.hasKey_ready m1 Float64.NaN hr rfl
  rw [hk] at hg
  refine ⟨⟨m1, h1, hg⟩, ?_⟩
  rintro ⟨m2, h2, hg2⟩
  rw [h1] at h2
  injection h2 with h3 _
  subst h3
  rw [hg] at hg2
  simp at hg2

/-- C7, amended. For every container state `m`, key `k` and value `v`: when `k`
can be hashed and is equal to itself (`k == k`), `Insert(k, v)` returns and
`HasKey(k)` is true in the state it leaves; and for every key, `HasKey(k)` is
true in the state left by any `Update(k, v)` that returned a nil error. -/
theorem C7_hasKey_after_write [DecidableEq K] [GoKey K] [Inhabited V] [ToIface K]
    (m : SafeMap K V) (k : K) (v : V) (hm : m.Ready) :
    (GoKey.hashable k = true → GoKey.selfEqual k = true →
      ∃ m1, m.Insert k v = Outcome.returned m1 () ∧ m1.HasKey k = Outcome.returned m1 true) ∧
    (∀ m1, m.Update k v = Outcome.returned m1 none → m1.HasKey k = Outcome.returned m1 true) := by
  constructor
  · intro hh hs
    obtain ⟨m1, h1⟩ := SafeMap.insert_returns m k v hm hh
    obtain ⟨hr, hf⟩ := SafeMap.insert_spec m m1 k v hm h1
    refine ⟨m1, h1, ?_⟩
    rw [SafeMap.hasKey_ready m1 k hr hh, hf k]
    simp [hs]
  · intro m1 h
    by_cases hh : GoKey.hashable k = true
    · cases hfk : m.data.find? k with
      | none =>
        rw [SafeMap.update_absent m k v hm hh hfk] at h
        simp at h
      | some w =>
        obtain ⟨hh2, hs⟩ := GoMap.find?_some m.data k w hfk
        obtain ⟨m2, h1, h2⟩ := SafeMap.update_present m k v w hm hfk
        rw [h1] at h
        injection h with h3 _
        subst h3
        obtain ⟨hr, hf⟩ := SafeMap.insert_spec m m2 k v hm h2
        rw [SafeMap.hasKey_ready m2 k hr hh, hf k]
        simp [hs]
    · rw [(SafeMap.unhashable_panics m k v hm (by simpa using hh)).2.2.1] at h
      simp at h

/-- Witness of C7: on the container holding `"x"`, `Insert("x", 2)` returns in
a state where `HasKey("x")` is true, and `Update("x", 2)` returns a nil error
in a state where `HasKey("x")` is true. -/
theorem C7_hasKey_after_write_witness :
    oneEntry.Ready ∧
      (∃ m1, oneEntry.Insert "x" 2 = Outcome.returned m1 () ∧
        m1.HasKey "x" = Outcome.returned m1 true) ∧
      (∃ m1, oneEntry.Update "x" 2 = Outcome.returned m1 none ∧
        m1.HasKey "x" = Outcome.returned m1 true) :=
  ⟨SafeMap.ready_oneEntry,
    (C7_hasKey_after_write oneEntry "x" 2 SafeMap.ready_oneEntry).1 rfl rfl,
    ⟨_, SafeMap.update_oneEntry,
      (C7_hasKey_after_write oneEntry "x" 2 SafeMap.ready_oneEntry).2 _ SafeMap.update_oneEntry⟩⟩

/-- C8. Key presence is monotone: for every container state `m` and key `k`
present in `m`, every single `Insert`, `Get`, `Update` or `HasKey` call with
any arguments ends and leaves `k` present, and so does every finite sequence of
such calls.  A call returns when its key can be hashed; a call whose key cannot
be hashed panics and leaves the container as it was. -/
theorem C8_presence_monotone [DecidableEq K] [GoKey K] [Inhabited V] [ToIface K]
    (m : SafeMap K V) (k : K) (hm : m.Ready) (hk : (m.data.find? k).isSome) :
    (∀ c : Call K V, ∃ m1, m.callEnd c = some m1 ∧ (m1.data.find? k).isSome ∧
      (GoKey.hashable c.key = true → m.call c = some m1)) ∧
    (∀ cs : List (Call K V), ∃ m1, m.runEnd cs = some m1 ∧ (m1.data.find? k).isSome ∧
      ((∀ c ∈ cs, GoKey.hashable c.key = true) → m.run cs = some m1)) := by
  constructor
  · intro c
    obtain ⟨m1, hc, -, hret, hkeep, -⟩ := SafeMap.call_ready m c hm
    exact ⟨m1, hc, hkeep k hk, hret⟩
  · intro cs
    obtain ⟨m1, hrun, -, hret, hkeep, -⟩ := SafeMap.run_ready cs m hm
    exact ⟨m1, hrun, hkeep k hk, hret⟩

/-- Witness of C8: the key `"x"` of the container holding it stays present
after `Update("x", 5)`, `Insert("y", 3)`, `Get("z")` and `HasKey("x")`, all of
which return. -/
theorem C8_presence_monotone_witness :
    oneEntry.Ready ∧ (oneEntry.data.find? "x").isSome ∧
      ∃ m1, oneEntry.run [Call.Update "x" 5, Call.Insert "y" 3, Call.Get "z", Call.HasKey "x"]
          = some m1 ∧ (m1.data.find? "x").isSome := by
  have hx : (oneEntry.data.find? "x").isSome := by
    simp [oneEntry, GoMap.find?, GoKey.hashable, GoKey.selfEqual]
  obtain ⟨m1, -, hp, hret⟩ := (C8_presence_monotone oneEntry "x" SafeMap.ready_oneEntry hx).2
    [Call.Update "x" 5, Call.Insert "y" 3, Call.Get "z", Call.HasKey "x"]
  exact ⟨SafeMap.ready_oneEntry, hx, m1, hret (fun _ _ => rfl), hp⟩

/-- C9. `Get` and `HasKey` have no side effect: for every container state `m`
and key `k`, present or not, the state after `Get(k)` and after `HasKey(k)` is
the state before the call: with a key that can be hashed both return in the
state `m`, and with a key that cannot be hashed both panic and leave the state
`m`. -/
theorem C9_reads_no_side_effect [GoKey K] [Inhabited V] [ToIface K]
    (m : SafeMap K V) (k : K) (hm : m.Ready) :
    if GoKey.hashable k = true then
      (∃ r, m.Get k = Outcome.returned m r) ∧ (∃ b, m.HasKey k = Outcome.returned m b)
    else m.Get k = Outcome.panicked m ∧ m.HasKey k = Outcome.panicked m := by
  by_cases hh : GoKey.hashable k = true
  · rw [if_pos hh]
    exact ⟨⟨_, SafeMap.get_ready m k hm hh⟩, ⟨_, SafeMap.hasKey_ready m k hm hh⟩⟩
  · rw [if_neg hh]
    have hh2 : GoKey.hashable k = false := by simpa using hh
    obtain ⟨tbl, unfound, rfl⟩ := (SafeMap.ready_iff m).1 hm
    constructor
    · simp [SafeMap.Get, RWMutex.RLock, RWMutex.RUnlock, RWMutex.zero, GoMap.index, hh2]
    · simp [SafeMap.HasKey, RWMutex.RLock, RWMutex.RUnlock, RWMutex.zero, GoMap.index, hh2]

/-- Witness of C9: `Get("y")` and `HasKey("y")` on the container holding only
`"x"`. -/
theorem C9_reads_no_side_effect_witness :
    oneEntry.Ready ∧
      (∃ r, oneEntry.Get "y" = Outcome.returned oneEntry r) ∧
      (∃ b, oneEntry.HasKey "y" = Outcome.returned oneEntry b) := by
  have h := C9_reads_no_side_effect oneEntry "y" SafeMap.ready_oneEntry
  have hy : GoKey.hashable ("y" : String) = true := rfl
  rw [if_pos hy] at h
  exact ⟨SafeMap.ready_oneEntry, h⟩

/-- C10, the code at an integer key: `Get(42)` on a new `SafeMap[int, string]`
returns the error `KeyError{Key: 42}`, and `Error()` on that value panics in
the type assertion `e.Key.(string)` and returns no string. -/
theorem C10_error_panics_on_int_key :
    (NewSafeMap : SafeMap Int String).Get 42
        = Outcome.returned NewSafeMap (default, some { Key := Iface.int 42 }) ∧
      KeyError.Error { Key := Iface.int 42 } = none :=
  ⟨SafeMap.get_ready NewSafeMap 42 SafeMap.ready_new rfl, rfl⟩

/-- C11, at a key that cannot be hashed: on a new `SafeMap[any, int]`,
`Insert([]int{1}, 1)` and `HasKey([]int{1})` panic in `m.data[key]` and do not
return. -/
theorem C11_insert_never_fails_counterexample :
    (NewSafeMap : SafeMap Iface Int).Insert sliceKey 1 = Outcome.panicked NewSafeMap ∧
      (NewSafeMap : SafeMap Iface Int).HasKey sliceKey = Outcome.panicked NewSafeMap ∧
      ¬ ∃ m2, (NewSafeMap : SafeMap Iface Int).Insert sliceKey 1 = Outcome.returned m2 () := by
  have hp := SafeMap.unhashable_panics (NewSafeMap : SafeMap Iface Int) sliceKey 1
    SafeMap.ready_new rfl
  refine ⟨hp.1, hp.2.2.2, ?_⟩
  rintro ⟨m2, h⟩
  rw [hp.1] at h
  simp at h

/-- C11, amended. `Insert` never fails on a constructed container for a key
that can be hashed: after `NewSafeMap` and any finite sequence of `Insert`,
`Get`, `Update` and `HasKey` calls, every call has ended (by a return when its
key can be hashed, otherwise by a panic that leaves the container as it was),
the map is allocated (not nil), and for every key `k` that can be hashed and
every value `v`, `Insert(k, v)` returns without panic and `HasKey(k)` returns;
the empty sequence is the case of the construction itself. -/
theorem C11_insert_never_fails [DecidableEq K] [GoKey K] [Inhabited V] [ToIface K]
    (cs : List (Call K V)) (k : K) (v : V) (hh : GoKey.hashable k = true) :
    ∃ m1, (NewSafeMap : SafeMap K V).runEnd cs = some m1 ∧
      ((∀ c ∈ cs, GoKey.hashable c.key = true) → (NewSafeMap : SafeMap K V).run cs = some m1) ∧
      m1.data.isNil = false ∧
      (∃ m2, m1.Insert k v = Outcome.returned m2 ()) ∧
      (∃ b, m1.HasKey k = Outcome.returned m1 b) := by
  obtain ⟨m1, hrun, hr, hret, -, -⟩ := SafeMap.run_ready cs NewSafeMap SafeMap.ready_new
  exact ⟨m1, hrun, hret, hr.2, SafeMap.insert_returns m1 k v hr hh,
    ⟨_, SafeMap.hasKey_ready m1 k hr hh⟩⟩

/-- Witness of C11: after `Insert("x", 1)` and `Get("y")` on a new container,
`Insert("z", 3)` and `HasKey("z")` return. -/
theorem C11_insert_never_fails_witness :
    GoKey.hashable ("z" : String) = true ∧
      ∃ m1, (NewSafeMap : SafeMap String Int).runEnd [Call.Insert "x" 1, Call.Get "y"]
          = some m1 ∧
        ((∀ c ∈ [Call.Insert "x" (1 : Int), Call.Get "y"], GoKey.hashable c.key = true) →
          (NewSafeMap : SafeMap String Int).run [Call.Insert "x" 1, Call.Get "y"] = some m1) ∧
        m1.data.isNil = false ∧
        (∃ m2, m1.Insert "z" 3 = Outcome.returned m2 ()) ∧
        (∃ b, m1.HasKey "z" = Outcome.returned m1 b) :=
  ⟨rfl, C11_insert_never_fails [Call.Insert "x" 1, Call.Get "y"] "z" 3 rfl⟩

/-- C13. Every operation releases the lock it acquired, on every exit path.
For every state `m` whatever its lock state and map: `Insert` and `Update`
acquire with `Lock`, so they wait when a reader or a writer holds the mutex and
otherwise end with the lock state they started from (`Insert` by returning or,
on a nil map or with a key that cannot be hashed, by panicking; `Update` by
returning a nil error or a `KeyError`, or by panicking with a key that cannot
be hashed); `Get` and `HasKey` acquire with `RLock`, so they wait only when a
writer holds the mutex and otherwise end, beside other readers too, in the
state they started from: by returning, on the nil-error path and on the
`KeyError` path alike, or by panicking with a key that cannot be hashed. -/
theorem C13_lock_released [DecidableEq K] [GoKey K] [Inhabited V] [ToIface K]
    (m : SafeMap K V) (k : K) (v : V) :
    (if m.mu.readers = 0 ∧ m.mu.writer = false then
        ∃ s, (m.Insert k v = Outcome.returned s () ∨ m.Insert k v = Outcome.panicked s) ∧
          s.mu = m.mu
      else m.Insert k v = Outcome.blocked) ∧
    (if m.mu.writer = false then
        if GoKey.hashable k = true then
          ∃ r, m.Get k = Outcome.returned m r ∧ (r.2 = none ↔ (m.data.find? k).isSome)
        else m.Get k = Outcome.panicked m
      else m.Get k = Outcome.blocked) ∧
    (if m.mu.readers = 0 ∧ m.mu.writer = false then
        if GoKey.hashable k = true then
          ∃ s r, m.Update k v = Outcome.returned s r ∧ s.mu = m.mu ∧
            (r = none ↔ (m.data.find? k).isSome)
        else m.Update k v = Outcome.panicked m
      else m.Update k v = Outcome.blocked) ∧
    (if m.mu.writer = false then
        if GoKey.hashable k = true then ∃ b, m.HasKey k = Outcome.returned m b
        else m.HasKey k = Outcome.panicked m
      else m.HasKey k = Outcome.blocked) := by
  obtain ⟨⟨n, w⟩, d⟩ := m
  refine ⟨?_, ?_, ?_, ?_⟩
  · by_cases h : n = 0 ∧ w = false
    · obtain ⟨rfl, rfl⟩ := h
      cases d with
      | nil => simp [SafeMap.Insert, RWMutex.Lock, RWMutex.Unlock, GoMap.assign]
      | alloc tbl unfound =>
        by_cases hh : GoKey.hashable k = true <;> by_cases hs : GoKey.selfEqual k = true <;>
          simp [SafeMap.Insert, RWMutex.Lock, RWMutex.Unlock, GoMap.assign, hh, hs]
    · simp [SafeMap.Insert, RWMutex.Lock, h]
  · cases w
    · by_cases hh : GoKey.hashable k = true
      · cases hk : d.find? k <;>
          simp [SafeMap.Get, RWMutex.RLock, RWMutex.RUnlock, GoMap.index, hh, hk]
      · simp [SafeMap.Get, RWMutex.RLock, RWMutex.RUnlock, GoMap.index, hh]
    · simp [SafeMap.Get, RWMutex.RLock]
  · by_cases h : n = 0 ∧ w = false
    · obtain ⟨rfl, rfl⟩ := h
      by_cases hh : GoKey.hashable k = true
      · cases hk : d.find? k with
        | none =>
          simp only [and_self, if_true, hh]
          refine ⟨{ mu := { readers := 0, writer := false }, data := d },
            some { Key := ToIface.toIface k }, ?_, rfl, ?_⟩ <;>
            simp [SafeMap.Update, RWMutex.Lock, RWMutex.Unlock, GoMap.index, hh, hk]
        | some w =>
          obtain ⟨-, hs⟩ := GoMap.find?_some d k w hk
          cases d with
          | nil => simp [GoMap.find?] at hk
          | alloc tbl unfound =>
            simp [SafeMap.Update, RWMutex.Lock, RWMutex.Unlock, GoMap.index, GoMap.assign,
              hh, hs, hk]
      · simp [SafeMap.Update, RWMutex.Lock, RWMutex.Unlock, GoMap.index, hh]
    · simp [SafeMap.Update, RWMutex.Lock, h]
  · cases w
    · by_cases hh : GoKey.hashable k = true
      · cases hk : d.find? k <;>
          simp [SafeMap.HasKey, RWMutex.RLock, RWMutex.RUnlock, GoMap.index, hh, hk]
      · simp [SafeMap.HasKey, RWMutex.RLock, RWMutex.RUnlock, GoMap.index, hh]
    · simp [SafeMap.HasKey, RWMutex.RLock]

/-- C14. Writes touch only the named key: for every container state `m`, keys
`k` and `k2` with `k2` different from `k`, and value `v`, the entry stored under
`k2`, the result of `Get(k2)` and the result of `HasKey(k2)` are the same in
the state left by `Insert(k, v)` as in `m`, and the same in the state left by
`Update(k, v)` as in `m`.  With a key `k` that cannot be hashed the write
panics and leaves the state `m`; with a key `k2` that cannot be hashed `Get(k2)`
and `HasKey(k2)` panic before the write and after it alike. -/
theorem C14_writes_touch_only_key [DecidableEq K] [GoKey K] [Inhabited V] [ToIface K]
    (m : SafeMap K V) (k k2 : K) (v : V) (hm : m.Ready) (hne : k2 ≠ k) :
    (if GoKey.hashable k = true then
        ∃ m1, m.Insert k v = Outcome.returned m1 () ∧
          m1.data.find? k2 = m.data.find? k2 ∧
          (if GoKey.hashable k2 = true then
            (∃ r, m.Get k2 = Outcome.returned m r ∧ m1.Get k2 = Outcome.returned m1 r) ∧
            (∃ b, m.HasKey k2 = Outcome.returned m b ∧ m1.HasKey k2 = Outcome.returned m1 b)
          else
            (m.Get k2 = Outcome.panicked m ∧ m1.Get k2 = Outcome.panicked m1) ∧
            (m.HasKey k2 = Outcome.panicked m ∧ m1.HasKey k2 = Outcome.panicked m1))
      else m.Insert k v = Outcome.panicked m) ∧
    (if GoKey.hashable k = true then
        ∃ m1 e, m.Update k v = Outcome.returned m1 e ∧
          m1.data.find? k2 = m.data.find? k2 ∧
          (if GoKey.hashable k2 = true then
            (∃ r, m.Get k2 = Outcome.returned m r ∧ m1.Get k2 = Outcome.returned m1 r) ∧
            (∃ b, m.HasKey k2 = Outcome.returned m b ∧ m1.HasKey k2 = Outcome.returned m1 b)
          else
            (m.Get k2 = Outcome.panicked m ∧ m1.Get k2 = Outcome.panicked m1) ∧
            (m.HasKey k2 = Outcome.panicked m ∧ m1.HasKey k2 = Outcome.panicked m1))
      else m.Update k v = Outcome.panicked m) := by
  by_cases hh : GoKey.hashable k = true
  · rw [if_pos hh, if_pos hh]
    constructor
    · obtain ⟨m1, h1⟩ := SafeMap.insert_returns m k v hm hh
      obtain ⟨hr, hf⟩ := SafeMap.insert_spec m m1 k v hm h1
      have hf2 : m1.data.find? k2 = m.data.find? k2 := by
        rw [hf k2]
        simp [hne]
      exact ⟨m1, h1, hf2, SafeMap.reads_agree m m1 k2 hm hr hf2⟩
    · cases hfk : m.data.find? k with
      | none =>
        exact ⟨m, _, SafeMap.update_absent m k v hm hh hfk, rfl,
          SafeMap.reads_agree m m k2 hm hm rfl⟩
      | some w =>
        obtain ⟨m1, h1, h2⟩ := SafeMap.update_present m k v w hm hfk
        obtain ⟨hr, hf⟩ := SafeMap.insert_spec m m1 k v hm h2
        have hf2 : m1.data.find? k2 = m.data.find? k2 := by
          rw [hf k2]
          simp [hne]
        exact ⟨m1, none, h1, hf2, SafeMap.reads_agree m m1 k2 hm hr hf2⟩
  · rw [if_neg hh, if_neg hh]
    have h := SafeMap.unhashable_panics m k v hm (by simpa using hh)
    exact ⟨h.1, h.2.2.1⟩

/-- Witness of C14: writes to `"y"` on the container holding `"x"` with value
`1` leave the entry, `Get("x")` and `HasKey("x")` as they were. -/
theorem C14_writes_touch_only_key_witness :
    oneEntry.Ready ∧ ("x" : String) ≠ "y" ∧
      ∃ m1, oneEntry.Insert "y" 7 = Outcome.returned m1 () ∧
        m1.data.find? "x" = oneEntry.data.find? "x" ∧
        (∃ r, oneEntry.Get "x" = Outcome.returned oneEntry r ∧
          m1.Get "x" = Outcome.returned m1 r) ∧
        (∃ b, oneEntry.HasKey "x" = Outcome.returned oneEntry b ∧
          m1.HasKey "x" = Outcome.returned m1 b) := by
  have h := (C14_writes_touch_only_key oneEntry "y" "x" 7 SafeMap.ready_oneEntry
    (by decide)).1
  have hy : GoKey.hashable ("y" : String) = true := rfl
  have hx : GoKey.hashable ("x" : String) = true := rfl
  rw [if_pos hy] at h
  obtain ⟨m1, h1, h2, h3⟩ := h
  rw [if_pos hx] at h3
  exact ⟨SafeMap.ready_oneEntry, by decide, m1, h1, h2, h3⟩

/-- C15. `HasKey` agrees with `Get` and with the failure condition of
`Update`: for every container state `m`, key `k` and value `v`, with a key that
can be hashed the three calls return, and `HasKey(k)` is true if and only if
`Get(k)` returns a nil error, and if and only if `Update(k, v)` returns a nil
error; with a key that cannot be hashed the three calls panic alike. -/
theorem C15_hasKey_agrees [DecidableEq K] [GoKey K] [Inhabited V] [ToIface K]
    (m : SafeMap K V) (k : K) (v : V) (hm : m.Ready) :
    if GoKey.hashable k = true then
      ∃ b r m1 e, m.HasKey k = Outcome.returned m b ∧ m.Get k = Outcome.returned m r ∧
        m.Update k v = Outcome.returned m1 e ∧
        (b = true ↔ r.2 = none) ∧ (b = true ↔ e = none)
    else
      m.HasKey k = Outcome.panicked m ∧ m.Get k = Outcome.panicked m ∧
        m.Update k v = Outcome.panicked m := by
  by_cases hh : GoKey.hashable k = true
  · rw [if_pos hh]
    cases hfk : m.data.find? k with
    | none =>
      refine ⟨_, _, m, _, SafeMap.hasKey_ready m k hm hh, SafeMap.get_ready m k hm hh,
        SafeMap.update_absent m k v hm hh hfk, ?_, ?_⟩ <;> simp [hfk]
    | some w =>
      obtain ⟨m1, h1, -⟩ := SafeMap.update_present m k v w hm hfk
      refine ⟨_, _, m1, none, SafeMap.hasKey_ready m k hm hh, SafeMap.get_ready m k hm hh,
        h1, ?_, ?_⟩ <;> simp [hfk]
  · rw [if_neg hh]
    have h := SafeMap.unhashable_panics m k v hm (by simpa using hh)
    exact ⟨h.2.2.2, h.2.1, h.2.2.1⟩

/-- Witness of C15: `HasKey("x")`, `Get("x")` and `Update("x", 2)` on the
container holding `"x"`. -/
theorem C15_hasKey_agrees_witness :
    oneEntry.Ready ∧
      ∃ b r m1 e, oneEntry.HasKey "x" = Outcome.returned oneEntry b ∧
        oneEntry.Get "x" = Outcome.returned oneEntry r ∧
        oneEntry.Update "x" 2 = Outcome.returned m1 e ∧
        (b = true ↔ r.2 = none) ∧ (b = true ↔ e = none) := by
  have h := C15_hasKey_agrees oneEntry "x" 2 SafeMap.ready_oneEntry
  have hx : GoKey.hashable ("x" : String) = true := rfl
  rw [if_pos hx] at h
  exact ⟨SafeMap.ready_oneEntry, h⟩

/-- C16. `Update` is `Insert` restricted to present keys: for every container
state `m`, key `k` and value `v`, when `k` is present `Update(k, v)` returns a
nil error in the very state in which `Insert(k, v)` returns; and whether `k` is
present or absent, `Update(k, v)` leaves the set of keys as it was: with a key
that can be hashed it returns in a state with the same set of keys as `m`, and
with a key that cannot be hashed it panics and leaves the state `m`. -/
theorem C16_update_refines_insert [DecidableEq K] [GoKey K] [Inhabited V] [ToIface K]
    (m : SafeMap K V) (k : K) (v : V) (hm : m.Ready) :
    ((m.data.find? k).isSome →
      ∃ m1, m.Update k v = Outcome.returned m1 none ∧ m.Insert k v = Outcome.returned m1 ()) ∧
    (if GoKey.hashable k = true then
        ∃ m1 e, m.Update k v = Outcome.returned m1 e ∧
          ∀ x, (m1.data.find? x).isSome = (m.data.find? x).isSome
      else m.Update k v = Outcome.panicked m) := by
  constructor
  · intro hp
    obtain ⟨w, hw⟩ := Option.isSome_iff_exists.1 hp
    exact SafeMap.update_present m k v w hm hw
  · by_cases hh : GoKey.hashable k = true
    · rw [if_pos hh]
      cases hfk : m.data.find? k with
      | none => exact ⟨m, _, SafeMap.update_absent m k v hm hh hfk, fun _ => rfl⟩
      | some w =>
        obtain ⟨m1, h1, h2⟩ := SafeMap.update_present m k v w hm hfk
        obtain ⟨-, hf⟩ := SafeMap.insert_spec m m1 k v hm h2
        refine ⟨m1, none, h1, fun x => ?_⟩
        rw [hf x]
        by_cases hx : x = k
        · subst hx
          split <;> simp [hfk]
        · simp [hx]
    · rw [if_neg hh]
      exact (SafeMap.unhashable_panics m k v hm (by simpa using hh)).2.2.1

/-- Witness of C16: on the container holding `"x"`, `Update("x", 2)` and
`Insert("x", 2)` return in the same state. -/
theorem C16_update_refines_insert_witness :
    oneEntry.Ready ∧
      ∃ m1, oneEntry.Update "x" 2 = Outcome.returned m1 none ∧
        oneEntry.Insert "x" 2 = Outcome.returned m1 () :=
  ⟨SafeMap.ready_oneEntry,
    (C16_update_refines_insert oneEntry "x" 2 SafeMap.ready_oneEntry).1
      (by simp [oneEntry, GoMap.find?, GoKey.hashable, GoKey.selfEqual])⟩

/-- C17. For every string `s`, `Error()` on `KeyError{Key: s}` returns exactly
`"Key error: "` followed by `s`; consequently, on every string-keyed container
state `m` from which `s` is absent, the errors returned by `Get(s)` and by
`Update(s, v)` are that `KeyError`, and each formats as `"Key error: "`
followed by `s`. -/
theorem C17_error_text {V : Type} [Inhabited V] (s : String) :
    KeyError.Error { Key := Iface.string s } = some ("Key error: " ++ s) ∧
    (∀ (m : SafeMap String V) (v : V), m.Ready → m.data.find? s = none →
      (∃ e, m.Get s = Outcome.returned m (default, some e) ∧
        e.Error = some ("Key error: " ++ s)) ∧
      (∃ e, m.Update s v = Outcome.returned m (some e) ∧
        e.Error = some ("Key error: " ++ s))) := by
  refine ⟨rfl, ?_⟩
  intro m v hm hs
  refine ⟨⟨{ Key := Iface.string s }, ?_, rfl⟩, ⟨{ Key := Iface.string s }, ?_, rfl⟩⟩
  · rw [SafeMap.get_ready m s hm rfl, hs]
    rfl
  · rw [SafeMap.update_absent m s v hm rfl hs]
    rfl

/-- Witness of C17: scenario A of the specification, `Get("x")` on a new
container, whose error formats as `"Key error: x"`, and likewise the error of
`Update("x", 2)`. -/
theorem C17_error_text_witness :
    (NewSafeMap : SafeMap String Int).Ready ∧
      (NewSafeMap : SafeMap String Int).data.find? "x" = none ∧
      (∃ e, (NewSafeMap : SafeMap String Int).Get "x"
          = Outcome.returned NewSafeMap (default, some e) ∧
        e.Error = some ("Key error: " ++ "x")) ∧
      (∃ e, (NewSafeMap : SafeMap String Int).Update "x" 2
          = Outcome.returned NewSafeMap (some e) ∧
        e.Error = some ("Key error: " ++ "x")) :=
  ⟨SafeMap.ready_new, rfl,
    (C17_error_text "x").2 NewSafeMap 2 SafeMap.ready_new rfl⟩

end Claims

end SafeMapGo
